import Mathlib

/-!
Verification of the path-trie HTTP router core (`src/util/path-trie.ts`,
`src/util/index.ts`, `src/router.ts`, `src/error.ts`).

The TypeScript source is shallowly embedded: JS strings become `String`,
JS `Map` objects (whose iteration order never matters for the verified
properties, since every access is by explicit key) become association
lists with update-in-place-or-append semantics, thrown exceptions become
explicit error values threaded through return types, and the mutation of
the trie performed by `PathTrie.set` becomes a returned rebuilt trie
(paired with the optional thrown error, so that mutations performed
before a throw are preserved exactly as in the source).  The non-owning
`parent` back-reference of a trie node is used by the source only to
build diagnostic messages and is not representable in a pure tree; it is
omitted, and diagnostic message *contents* are not part of any verified
property.
-/

namespace TrieRouter

/-! ### String primitives

The source uses `String.prototype.split` on single-character separators,
`trim`, `toUpperCase`, `includes`, and `indexOf(" ")`.  These are
re-implemented structurally over `String.data` so that all definitions
reduce inside the kernel. -/

/-- Embeds `split` on a single-character separator, JS semantics:
`"a//b".split("/") = ["", "a", "", "b"]` keeps empty pieces. -/
def splitCharAux (c : Char) : List Char → List Char → List String
  | [], acc => [⟨acc.reverse⟩]
  | x :: xs, acc =>
      if x = c then ⟨acc.reverse⟩ :: splitCharAux c xs []
      else splitCharAux c xs (x :: acc)

def splitChar (c : Char) (s : String) : List String :=
  splitCharAux c s.data []

def isJsSpace (c : Char) : Bool :=
  c = ' ' || c = '\t' || c = '\n' || c = '\r'

/-- JS `String.prototype.trim` (restricted to ASCII whitespace). -/
def strTrim (s : String) : String :=
  ⟨((s.data.dropWhile isJsSpace).reverse.dropWhile isJsSpace).reverse⟩

/-- JS `String.prototype.toUpperCase` (ASCII). -/
def strToUpper (s : String) : String :=
  ⟨s.data.map Char.toUpper⟩

def strContainsChar (s : String) (c : Char) : Bool :=
  s.data.any (· = c)

/-- The part of `s` strictly before the first occurrence of `c`
(`s.substring(0, s.indexOf(c))` when the index exists). -/
def strBefore (s : String) (c : Char) : String :=
  ⟨s.data.takeWhile (· ≠ c)⟩

/-- The part of `s` from the first occurrence of `c` on, the separator
included (`s.substring(s.indexOf(c))` when the index exists). -/
def strFrom (s : String) (c : Char) : String :=
  ⟨s.data.dropWhile (· ≠ c)⟩

/-- Embeds `text.endsWith(char) ? text.slice(0, -1) : text` — `trimEnd` of
`src/util/index.ts` specialised to a one-character suffix. -/
def trimEnd (text : String) (c : Char) : String :=
  match text.data.reverse with
  | [] => text
  | x :: _ => if x = c then ⟨text.data.dropLast⟩ else text

/-! ### `decodeURIComponent`

The JS builtin decodes `%XX` escapes, reassembles multi-byte UTF-8
sequences, and *throws a `URIError`* on malformed escapes such as
`%zz`.  This embedding decodes single-code-unit escapes and passes
malformed escapes through instead of throwing, so it agrees with the
builtin exactly on percent-free strings, where both are the identity
and the builtin cannot throw (`decodeURIComponent_of_no_percent`).
Every theorem below that quantifies over request segment strings
restricts itself to percent-free segments for precisely this reason;
concrete inputs of other theorems are percent-free. -/

def hexVal (c : Char) : Option Nat :=
  if '0' ≤ c ∧ c ≤ '9' then some (c.toNat - '0'.toNat)
  else if 'a' ≤ c ∧ c ≤ 'f' then some (c.toNat - 'a'.toNat + 10)
  else if 'A' ≤ c ∧ c ≤ 'F' then some (c.toNat - 'A'.toNat + 10)
  else none

def percentDecodeAux : List Char → List Char
  | [] => []
  | '%' :: a :: b :: rest =>
      match hexVal a, hexVal b with
      | some ha, some hb => Char.ofNat (16 * ha + hb) :: percentDecodeAux rest
      | _, _ => '%' :: percentDecodeAux (a :: b :: rest)
  | c :: rest => c :: percentDecodeAux rest

def decodeURIComponent (s : String) : String :=
  ⟨percentDecodeAux s.data⟩

/-! ### Association lists with JS `Map.set` semantics -/

/-- Embeds `Map.set`: replace the value of an existing key in place (keeping
its position), otherwise append at the end. -/
def assocSet {β : Type} : List (String × β) → String → β → List (String × β)
  | [], k, v => [(k, v)]
  | (k', v') :: rest, k, v =>
      if k' = k then (k, v) :: rest else (k', v') :: assocSet rest k v

/-! ### The trie (`src/util/path-trie.ts`)

`PathTrieNode` holds the child map, diagnostic `path`/`id` strings, the
optional handler chain and the optional parameter map
(`Map<string, {value, index}>`).  The handler payload is a type
parameter `α`, as in the generic TypeScript class. -/

inductive PathTrieNode (α : Type) : Type where
  | node
      (children : List (String × PathTrieNode α))
      (path : Option String)
      (id : Option String)
      (handlers : Option (List α))
      (params : Option (List (String × String × Nat)))

namespace PathTrieNode

variable {α : Type}

def children : PathTrieNode α → List (String × PathTrieNode α)
  | .node c _ _ _ _ => c

def path : PathTrieNode α → Option String
  | .node _ p _ _ _ => p

def id : PathTrieNode α → Option String
  | .node _ _ i _ _ => i

def handlers : PathTrieNode α → Option (List α)
  | .node _ _ _ h _ => h

def params : PathTrieNode α → Option (List (String × String × Nat))
  | .node _ _ _ _ ps => ps

def childGet (n : PathTrieNode α) (k : String) : Option (PathTrieNode α) :=
  n.children.lookup k

/-- Embeds `node.children.set(k, child)`. -/
def childSet (n : PathTrieNode α) (k : String) (c : PathTrieNode α) : PathTrieNode α :=
  .node (assocSet n.children k c) n.path n.id n.handlers n.params

def withHandlers (n : PathTrieNode α) (h : Option (List α)) : PathTrieNode α :=
  .node n.children n.path n.id h n.params

def withParamsId (n : PathTrieNode α)
    (ps : Option (List (String × String × Nat))) (i : Option String) : PathTrieNode α :=
  .node n.children n.path i n.handlers ps

end PathTrieNode

/-- Embeds `new PathTrieNode(undefined, "/")` — the root of a fresh `PathTrie`. -/
def rootNode (α : Type) : PathTrieNode α :=
  .node [] (some "/") none none none

namespace PathTrie

variable {α : Type}

/-- Embeds `child?.handlers != null ? [child] : []` — one push of `getAll`. -/
def pushIfHandlers (n : Option (PathTrieNode α)) : List (PathTrieNode α) :=
  match n with
  | some c => if c.handlers.isSome then [c] else []
  | none => []

/-- The loop of `PathTrie.getAll` for a non-empty `pathParts`.  At the
final index the exact child and the `*` child are pushed (in that
order) *before* the per-iteration `**` push; at a non-final index the
`**` push happens and then the walk descends into the exact child,
falling back to the `*` child, stopping when both are absent. -/
def getAllLoop (node : PathTrieNode α) : List String → List (PathTrieNode α)
  | [] => []
  | [p] =>
      let part := decodeURIComponent p
      let child := node.childGet part
      let glob := node.childGet "*"
      let greedyGlob := node.childGet "**"
      pushIfHandlers child ++ pushIfHandlers glob ++ pushIfHandlers greedyGlob
  | p :: rest =>
      let part := decodeURIComponent p
      let child := node.childGet part
      let glob := node.childGet "*"
      let greedyGlob := node.childGet "**"
      let next := match child with
        | some c => some c
        | none => glob
      pushIfHandlers greedyGlob ++
        (match next with
         | some c => getAllLoop c rest
         | none => [])

/-- Embeds `PathTrie.getAll`, taking the root node of the trie. -/
def getAll (root : PathTrieNode α) (pathParts : List String) : List (PathTrieNode α) :=
  match pathParts with
  | [] => if root.handlers.isSome then [root] else []
  | _ :: _ => getAllLoop root pathParts

/-- The loop of `PathTrie.get`: returns the final `node` value (none
when the walk fell off the trie) together with `bestGreedyGlob`, the
`**` child of the *first* visited node that has one — tracked whether
or not it carries handlers. -/
def getLoop (node : PathTrieNode α) (best : Option (PathTrieNode α)) :
    List String → Option (PathTrieNode α) × Option (PathTrieNode α)
  | [] => (some node, best)
  | p :: rest =>
      let part := decodeURIComponent p
      let best' := if best.isNone && (node.childGet "**").isSome
        then node.childGet "**" else best
      let child := match node.childGet part with
        | some c => some c
        | none => node.childGet "*"
      match child with
      | some c => getLoop c best' rest
      | none => (none, best')

/-- Embeds `PathTrie.get`, taking the root node of the trie:
`node != null && node.handlers != null ? node : bestGreedyGlob`. -/
def get (root : PathTrieNode α) (pathParts : List String) : Option (PathTrieNode α) :=
  match getLoop root none pathParts with
  | (some n, best) => if n.handlers.isSome then some n else best
  | (none, best) => best

/-- Embeds `PathTrie.has`. -/
def has (root : PathTrieNode α) (pathParts : List String) : Bool :=
  (get root pathParts).isSome

end PathTrie

def joinWith (sep : String) : List String → String
  | [] => ""
  | [x] => x
  | x :: rest => x ++ sep ++ joinWith sep rest

/-! ### `PathTrie.set`

The source first validates and pre-processes the whole path (throwing
before touching the trie on a malformed segment), then walks the trie
creating missing nodes and finally invokes the caller-supplied
`replaceFn` on the resolved node.  Every call site in `Router`
(filter/hook/handle/fallback/catch) passes the same `replaceFn`: throw
a `RouterError` if the node already has a handler chain, otherwise
assign the chain — embedded here as `bindHandlers`.  The result pairs
the optional thrown error message with the resulting trie, so that
mutations made before a throw are kept, exactly as in the source. -/

/-- One entry of the pre-processed `parts` array of `PathTrie.set`
(`path` is the diagnostic sub-path, `id` the validated segment key). -/
structure ProcPart where
  path : String
  id : String

/-- The character class `[\w\-\.%]` of the segment regex. -/
def wordClassChar (c : Char) : Bool :=
  c.isAlphanum || c = '_' || c = '-' || c = '.' || c = '%'

/-- Embeds `^(?:(?<glob>\*\*?)|(?<id>[\w\-\.%]*))$`; when it matches, the
extracted `id` equals the part itself (the empty part included). -/
def partValid (p : String) : Bool :=
  p = "*" || p = "**" || p.data.all wordClassChar

def subPathAt (pathParts : List (String × Option String)) (i : Nat) : String :=
  "/" ++ joinWith "/" ((pathParts.take (i + 1)).map Prod.fst)

/-- The path-processing loop of `PathTrie.set`: validates each part,
collects the `parts` array and the parameter map
(`params.set(paramId, {value: id, index: i})`), aborting with the
thrown message on the first invalid part. -/
def procPathAux (pathParts : List (String × Option String)) :
    Nat → List (String × Option String) → List ProcPart →
    List (String × String × Nat) →
    Option String × List ProcPart × List (String × String × Nat)
  | _, [], parts, params => (none, parts, params)
  | i, (part, paramId) :: rest, parts, params =>
      if partValid part then
        let params' := match paramId with
          | some pid => assocSet params pid (part, i)
          | none => params
        procPathAux pathParts (i + 1) rest (parts ++ [⟨subPathAt pathParts i, part⟩]) params'
      else
        (some ("invalid path at " ++ subPathAt pathParts i), parts, params)

def procPath (pathParts : List (String × Option String)) :
    Option String × List ProcPart × List (String × String × Nat) :=
  procPathAux pathParts 0 pathParts [] []

namespace PathTrie

variable {α : Type}

/-- The `replaceFn` passed by every `Router` registration entry point:
conflict if the node already holds a chain, otherwise bind the chain. -/
def bindHandlers (hs : List α) (n : PathTrieNode α) : Option String × PathTrieNode α :=
  match n.handlers with
  | some _ => (some ("Overriding " ++ (n.path.getD "")), n)
  | none => (none, n.withHandlers (some hs))

/-- The insertion loop of `PathTrie.set`.  An empty final id binds the
current node itself (setting its `params` and `id` only when the bind
did not throw); an empty non-final id is replaced by `*`.  At the final
level, an existing child is bound in place (its `params` are *not*
touched), while a missing child is created carrying `params`. -/
def setLoop (hs : List α) (params : List (String × String × Nat)) :
    PathTrieNode α → List ProcPart → Option String × PathTrieNode α
  | node, [] => (none, node)
  | node, [part] =>
      if part.id = "" then
        match bindHandlers hs node with
        | (some e, n') => (some e, n')
        | (none, n') => (none, n'.withParamsId (some params) (some ""))
      else
        match node.childGet part.id with
        | some child =>
            let r := bindHandlers hs child
            (r.1, node.childSet part.id r.2)
        | none =>
            let child : PathTrieNode α :=
              .node [] (some part.path) (some part.id) none (some params)
            let r := bindHandlers hs child
            (r.1, node.childSet part.id r.2)
  | node, part :: rest =>
      let pid := if part.id = "" then "*" else part.id
      match node.childGet pid with
      | some child =>
          let r := setLoop hs params child rest
          (r.1, node.childSet pid r.2)
      | none =>
          let child : PathTrieNode α := .node [] (some part.path) (some pid) none none
          let r := setLoop hs params child rest
          (r.1, node.childSet pid r.2)

/-- Embeds `PathTrie.set` with `replaceFn` specialised to the uniform
`Router` registration callback binding the chain `hs`. -/
def set (hs : List α) (pathParts : List (String × Option String))
    (root : PathTrieNode α) : Option String × PathTrieNode α :=
  match procPath pathParts with
  | (some e, _, _) => (some e, root)
  | (none, parts, params) => setLoop hs params root parts

end PathTrie

/-- Walk the trie along exact child keys (for stating properties about
where `set` put a chain). -/
def walkNode {α : Type} (n : PathTrieNode α) : List String → Option (PathTrieNode α)
  | [] => some n
  | k :: rest =>
      match n.childGet k with
      | some c => walkNode c rest
      | none => none

/-! ### The pattern compiler (`src/util/index.ts`) -/

/-- Embeds `part.includes(":") ? part.split(":", 2).map(trim) : [part]` —
split one raw segment into the token and the optional parameter name
(JS `split` with limit 2 drops everything after the second piece). -/
def splitSeg (raw : String) : String × Option String :=
  if strContainsChar raw ':' then
    let pieces := splitChar ':' raw
    (strTrim (pieces.getD 0 ""), some (strTrim (pieces.getD 1 "")))
  else (raw, none)

/-- The body of `splitPathRecursive`'s inner loop for one raw segment:
a non-empty token contributes its first `|`-alternative to each
existing expansion in place and appends one new expansion per further
alternative (grouped in original-expansion order); an empty token
(possible only via a `:name`-only segment, since empty slash-separated
pieces were already filtered out) appends `*` to every expansion. -/
def stepSeg (distPaths : List (List (String × Option String))) (rawPart : String) :
    List (List (String × Option String)) :=
  let pp := splitSeg rawPart
  if pp.1 ≠ "" then
    let subParts := splitChar '|' pp.1
    let sub0 := subParts.headD ""
    (distPaths.map (fun d => d ++ [(sub0, pp.2)])) ++
      (distPaths.flatMap (fun d => subParts.tail.map (fun sp => d ++ [(sp, pp.2)])))
  else
    distPaths.map (fun d => d ++ [("*", pp.2)])

/-- Embeds `splitPathRecursive`: expands each template's alternation groups
into the cartesian product of concrete segment sequences.  Empty
slash-separated pieces are dropped by `.filter(Boolean)`; a template
with no segments at all yields the single sequence `[("", none)]`. -/
def splitPathRecursive (paths_ : List String) : List (List (String × Option String)) :=
  paths_.flatMap fun path =>
    let parts := (splitChar '/' path).filter (· ≠ "")
    let distPaths := parts.foldl stepSeg [[]]
    distPaths.map (fun d => if d = [] then [("", none)] else d)

/-- Embeds `splitPath`: comma-separated templates, trimmed, empties dropped. -/
def splitPath (path : String) : List (List (String × Option String)) :=
  splitPathRecursive (((splitChar ',' path).map strTrim).filter (· ≠ ""))

/-- Embeds `REQUEST_METHODS_LIST` of `src/defs.ts`. -/
def REQUEST_METHODS_LIST : List String :=
  ["HEAD", "OPTIONS", "GET", "POST", "PUT", "PATCH", "DELETE"]

/-- Embeds `splitMethodPath`: parse `METHOD[|METHOD...] PATH[,PATH...]`.  (The
source validates the method list twice; the second pass can never fire
and is omitted.) -/
def splitMethodPath (methodPath : String) :
    Except String (List String × List (List (String × Option String))) :=
  if ¬ strContainsChar methodPath ' ' then
    .error ("invalid (method path) " ++ methodPath)
  else
    let methodsStr := strTrim (strBefore methodPath ' ')
    let pathStr := strFrom methodPath ' '
    let methods :=
      ((if methodsStr = "*" then REQUEST_METHODS_LIST
        else splitChar '|' methodsStr).filter (· ≠ "")).map strToUpper
    match methods.find? (fun m => ¬ REQUEST_METHODS_LIST.contains m) with
    | some m => .error ("invalid method " ++ m)
    | none =>
        let paths := splitPath pathStr
        if methods.length < 1 then .error ("method required " ++ methodPath)
        else if paths.length < 1 then .error ("path required " ++ methodPath)
        else .ok (methods, paths)

/-- Embeds `joinPath`: prefix every comma-separated path alternative of
`methodPath` with every comma-separated base path (trailing `/` of the
base trimmed), methods preserved. -/
def joinPath (basePath : String) (methodPath : String) : Except String String :=
  if ¬ strContainsChar methodPath ' ' then
    .error ("invalid (method path) " ++ methodPath)
  else
    let methodsStr := strTrim (strBefore methodPath ' ')
    let pathStr := strFrom methodPath ' '
    let basePaths := ((splitChar ',' basePath).map strTrim).filter (· ≠ "")
    let paths := ((splitChar ',' pathStr).map strTrim).filter (· ≠ "")
    let newPaths := basePaths.flatMap (fun bp => paths.map (fun p => trimEnd bp '/' ++ p))
    .ok (methodsStr ++ " " ++ joinWith "," newPaths)

/-! ### Errors (`src/error.ts`) and dispatch values

`RouterError` carries no status; `HttpError` carries one.  `typeError`
stands for the JS `TypeError` raised when the code dereferences
`undefined` (which happens in `#handleRoute` when `handleRequest`
indexes a route `Record` with an unsupported method name). -/

inductive JErr : Type where
  | router (msg : String)
  | http (status : Nat) (msg : String)
  | typeError (msg : String)
  deriving DecidableEq

/-- Embeds `(error as HttpError).status` — `undefined` unless an `HttpError`. -/
def JErr.statusOf : JErr → Option Nat
  | .http s _ => some s
  | _ => none

/-- A `Response`: the status plus the body passed to the constructor
(`none` embeds a `null` body).  Headers are not inspected by any
verified property and are omitted. -/
structure Resp where
  status : Nat
  body : Option String
  deriving DecidableEq

/-- Embeds `StatusCode` constants used by the dispatcher.  Modelled from the
spec: `src/status/code.ts` is not part of the provided sources; the
spec fixes 204 (no content), 404 (not found) and a generic
server-error default (500). -/
def StatusCode.NoContent : Nat := 204
def StatusCode.NotFound : Nat := 404
def StatusCode.InternalServerError : Nat := 500

/-- Embeds `StatusText.get`.  Modelled from the spec: `src/status/text.ts` is
not part of the provided sources; only the texts of the codes the
dispatcher can synthesise are needed, and no verified property
inspects them. -/
def statusTextOf (n : Nat) : String :=
  if n = 200 then "OK"
  else if n = 204 then "No Content"
  else if n = 404 then "Not Found"
  else if n = 500 then "Internal Server Error"
  else ""

/-- The slice of the mutable `ProcessedRequest` context touched by the
dispatcher: the resolved parameter values (`pathParts[index] ?? null`
embeds as an `Option`), the status code (0 until `status()` is
called), the per-stage call counters and the captured error. -/
structure Ctx where
  params : List (String × Option String) := []
  statusCode : Nat := 0
  callCount : Nat := 0
  filterCount : Nat := 0
  hookCount : Nat := 0
  handleCount : Nat := 0
  fallbackCount : Nat := 0
  catchCount : Nat := 0
  error : Option JErr := none
  deriving DecidableEq

/-- The outcome of invoking one handler: a `Response`, a non-response
value (`void`/anything else — the pipeline continues), or a thrown
error.  `await` of promises is transparent here (§5 of the spec:
execution within a request is strictly sequential). -/
inductive HandlerOut : Type where
  | response (r : Resp)
  | pass
  | raiseErr (e : JErr)

/-- A handler: a function of the request context.  Context mutation by
handler bodies is not needed by any verified property and is omitted
(the dispatcher's own context mutations are explicit). -/
def Handler : Type := Ctx → HandlerOut

/-- Embeds `ProcessedRequest.end()`: status `statusCode || 200`, body the
status text. -/
def ctxEnd (c : Ctx) : Resp :=
  let status := if c.statusCode = 0 then 200 else c.statusCode
  ⟨status, some (statusTextOf status)⟩

/-! ### `Router.#handleRoute` -/

/-- The inner handler loop: `callCount += i + 1` (sic — a triangular
accumulation), invoke, and return on an actual `Response`. -/
def runChain (c : Ctx) : List Handler → Nat → Nat → Except JErr (Option Resp × Nat)
  | [], _, cc => .ok (none, cc)
  | h :: rest, i, cc =>
      let cc := cc + (i + 1)
      match h c with
      | .response r => .ok (some r, cc)
      | .pass => runChain c rest (i + 1) cc
      | .raiseErr e => .error e

/-- The outer loop of `#handleRoute` over the matched nodes (entries
may be `undefined` when `get` found nothing).  A node's parameter map,
when present, *replaces* `processedRequest.params` (raw, undecoded
path parts indexed) before its chain runs — even when the node has no
chain.  A thrown handler error aborts the stage, keeping the context
mutations made so far. -/
def runRoutes (pathParts : List String) :
    Ctx → List (Option (PathTrieNode Handler)) → Nat →
    Except JErr (Option Resp × Nat) × Ctx
  | c, [], cc => (.ok (none, cc), c)
  | c, none :: rest, cc => runRoutes pathParts c rest cc
  | c, some nd :: rest, cc =>
      let c := match nd.params with
        | some ps =>
            { c with params := ps.map (fun pr => (pr.1, pathParts.get? pr.2.2)) }
        | none => c
      match nd.handlers with
      | some hs =>
          match runChain c hs 0 cc with
          | .ok (some r, cc') => (.ok (some r, cc'), c)
          | .ok (none, cc') => runRoutes pathParts c rest cc'
          | .error e => (.error e, c)
      | none => runRoutes pathParts c rest cc

/-- Embeds `Router.#handleRoute`.  `mRoutes` is the value of indexing the
per-method route `Record`: `none` embeds `undefined` (unsupported
method name), on which the JS code throws `TypeError` at the first
dereference, before touching the context. -/
def handleRoute (c : Ctx) (mRoutes : Option (PathTrieNode Handler))
    (pathParts : List String) (callAll : Bool) :
    Except JErr (Option Resp × Nat) × Ctx :=
  match mRoutes with
  | none => (.error (JErr.typeError "Cannot read properties of undefined"), c)
  | some root =>
      let routes : List (Option (PathTrieNode Handler)) :=
        if callAll then (PathTrie.getAll root pathParts).map some
        else [PathTrie.get root pathParts]
      runRoutes pathParts c routes 0

/-! ### `Router.handleRequest` -/

/-- A `Router`'s per-stage route storage: one trie per route type and
supported method (`initRoutes` builds a `Record` with exactly the
seven supported methods as keys). -/
structure RouterM where
  filterF : String → PathTrieNode Handler
  hookF : String → PathTrieNode Handler
  handlerF : String → PathTrieNode Handler
  fallbackF : String → PathTrieNode Handler
  catcherF : String → PathTrieNode Handler

/-- Embeds `this.#routes.<type>[method]` — indexing the seven-key `Record`
with an arbitrary method string: `undefined` (`none`) off the set. -/
def recordIndex (f : String → PathTrieNode Handler) (m : String) :
    Option (PathTrieNode Handler) :=
  if REQUEST_METHODS_LIST.contains m then some (f m) else none

def RouterM.filterT (r : RouterM) (m : String) : Option (PathTrieNode Handler) :=
  recordIndex r.filterF m

def RouterM.hookT (r : RouterM) (m : String) : Option (PathTrieNode Handler) :=
  recordIndex r.hookF m

def RouterM.handlerT (r : RouterM) (m : String) : Option (PathTrieNode Handler) :=
  recordIndex r.handlerF m

def RouterM.fallbackT (r : RouterM) (m : String) : Option (PathTrieNode Handler) :=
  recordIndex r.fallbackF m

def RouterM.catcherT (r : RouterM) (m : String) : Option (PathTrieNode Handler) :=
  recordIndex r.catcherF m

/-- Embeds `pathname.split("/").filter(Boolean)`. -/
def pathPartsOf (pathname : String) : List String :=
  (splitChar '/' pathname).filter (· ≠ "")

/-- The `try` block of `handleRequest`: method check, then the filter,
hook, handler and fallback stages.  Note the structure of the source:
the hook stage is *not* guarded by `response == null` — only the
handler and fallback stages are — and each stage's non-`null` response
overwrites the current one. -/
def tryStages (r : RouterM) (method : String) (pathParts : List String) :
    Except JErr (Option Resp) × Ctx :=
  let c : Ctx := {}
  if ¬ REQUEST_METHODS_LIST.contains method then
    (.error (JErr.router ("method " ++ method ++ " not supported")), c)
  else
    match handleRoute c (r.filterT method) pathParts true with
    | (.error e, c) => (.error e, c)
    | (.ok (r1, cc1), c) =>
      let c := { c with callCount := c.callCount + cc1, filterCount := cc1 }
      let response := r1
      match handleRoute c (r.hookT method) pathParts true with
      | (.error e, c) => (.error e, c)
      | (.ok (r2, cc2), c) =>
        let c := { c with callCount := c.callCount + cc2, hookCount := cc2 }
        let response := match r2 with
          | some x => some x
          | none => response
        match response with
        | some resp => (.ok (some resp), c)
        | none =>
          match handleRoute c (r.handlerT method) pathParts false with
          | (.error e, c) => (.error e, c)
          | (.ok (r3, cc3), c) =>
            let c := { c with callCount := c.callCount + cc3, handleCount := cc3 }
            let response := r3
            match response with
            | some resp => (.ok (some resp), c)
            | none =>
              match handleRoute c (r.fallbackT method) pathParts false with
              | (.error e, c) => (.error e, c)
              | (.ok (r4, cc4), c) =>
                let c := { c with callCount := c.callCount + cc4, fallbackCount := cc4 }
                (.ok r4, c)

/-- The `finally` block: synthesise the response when no stage
produced one — 204 with a `null` body if the handler stage invoked at
least one handler, else 404 with the status text as body.  (The
elapsed-time computation and the observability callback are output
side-channels not modelled.) -/
def finalize (response : Option Resp) (c : Ctx) : Resp × Ctx :=
  let handlersCalled := c.handleCount > 0
  match response with
  | some r => (r, c)
  | none =>
      let status := if handlersCalled then StatusCode.NoContent else StatusCode.NotFound
      (⟨status, if handlersCalled then none else some (statusTextOf status)⟩, c)

/-- Embeds `Router.handleRequest` after request preprocessing, given the raw
method and the URL pathname.  The `catch` block captures the error,
adopts its status (default 500) and runs the catcher stage; an error
thrown *inside* the `catch` block (for an unsupported method the
catcher lookup itself dereferences `undefined`) propagates out of
`handleRequest`, embedded as `.error` — no response is returned then,
although the `finally` block still ran. -/
def handleRequest (r : RouterM) (methodRaw : String) (pathname : String) :
    Except (JErr × Ctx) (Resp × Ctx) :=
  let method := strToUpper methodRaw
  let pathParts := pathPartsOf pathname
  match tryStages r method pathParts with
  | (.ok response, c) => .ok (finalize response c)
  | (.error e, c) =>
      let c := { c with error := some e, statusCode := e.statusOf.getD StatusCode.InternalServerError }
      match handleRoute c (r.catcherT method) pathParts false with
      | (.error e2, c2) => .error (e2, c2)
      | (.ok (rc, ccc), c2) =>
          let c2 := { c2 with callCount := c2.callCount + ccc, catchCount := ccc }
          let response := match rc with
            | some x => some x
            | none => some (ctxEnd c2)
          .ok (finalize response c2)

/-! ### Registration (`Router.filter/hook/handle/fallback/catch`)

The five registration entry points are textually identical up to the
record list and trie group they touch; they are embedded once, over
the state of a single route type.  `handleOne` is the body of the
loop over one route-definition string: parse it (a parse failure
aborts *before* the record push), push the `(definition, handlers)`
record, then insert into every selected `(method, path)` trie — an
insertion failure (conflict or invalid segment) aborts *after* the
push, and nothing is rolled back. -/

structure RegState (α : Type) where
  sets : List (String × List α)
  routes : String → PathTrieNode α

def updRoutes {α : Type} (routes : String → PathTrieNode α) (m : String)
    (t : PathTrieNode α) : String → PathTrieNode α :=
  fun m' => if m' = m then t else routes m'

/-- Embeds `for (const path of paths) routes.set(path, replaceFn)` on the one
trie selected by a method. -/
def insertPaths {α : Type} (hs : List α) :
    List (List (String × Option String)) → PathTrieNode α →
    Option String × PathTrieNode α
  | [], t => (none, t)
  | p :: rest, t =>
      match PathTrie.set hs p t with
      | (some e, t') => (some e, t')
      | (none, t') => insertPaths hs rest t'

/-- Embeds `for (const method of methods) { ... for (const path of paths) ... }`. -/
def insertAll {α : Type} (hs : List α)
    (paths : List (List (String × Option String))) :
    List String → (String → PathTrieNode α) →
    Option String × (String → PathTrieNode α)
  | [], routes => (none, routes)
  | m :: ms, routes =>
      match insertPaths hs paths (routes m) with
      | (some e, t') => (some e, updRoutes routes m t')
      | (none, t') => insertAll hs paths ms (updRoutes routes m t')

/-- The loop body of a registration entry point for one
route-definition string (the record is pushed with the *raw* string;
only `splitMethodPath` sees it trimmed). -/
def handleOne {α : Type} (mp : String) (hs : List α) (st : RegState α) :
    Option String × RegState α :=
  match splitMethodPath (strTrim mp) with
  | .error e => (some e, st)
  | .ok mr =>
      let st1 : RegState α := ⟨st.sets ++ [(mp, hs)], st.routes⟩
      match insertAll hs mr.2 mr.1 st1.routes with
      | (some e, routes') => (some e, ⟨st1.sets, routes'⟩)
      | (none, routes') => (none, ⟨st1.sets, routes'⟩)

/-- A registration call `stage(...methodPaths)(handlers)`: the strings
are processed in order and a throw aborts the rest. -/
def routerHandle {α : Type} (mps : List String) (hs : List α) (st : RegState α) :
    Option String × RegState α :=
  match mps with
  | [] => (none, st)
  | mp :: rest =>
      match handleOne mp hs st with
      | (some e, st') => (some e, st')
      | (none, st') => routerHandle rest hs st'

/-- Embeds `Router.append` restricted to one route type: re-register every
record of the sub-router's record list under the prefixed definition,
the same handler list reference reused. -/
def routerAppend {α : Type} (basePath : String) :
    List (String × List α) → RegState α → Option String × RegState α
  | [], st => (none, st)
  | (mp, hs) :: rest, st =>
      match joinPath basePath mp with
      | .error e => (some e, st)
      | .ok mp' =>
          match handleOne mp' hs st with
          | (some e, st') => (some e, st')
          | (none, st') => routerAppend basePath rest st'

/-! ### The spec's description of single-best lookup

For claim C3 the spec's own lookup algorithm is written out verbatim
as a second definition (following the spec's words, §4.2: the walk
remembers the first `**` child encountered *that carries a handler
chain*, and at the end a fallback is returned only *if it carries
one*), to be compared with `PathTrie.get` above, whose tracking and
final return ignore whether the fallback carries a chain. -/

def carriesChain {α : Type} (n : Option (PathTrieNode α)) : Bool :=
  match n with
  | some c => c.handlers.isSome
  | none => false

/-- The walk of the spec's `lookup(segments)` description. -/
def specGetLoop {α : Type} (node : PathTrieNode α) (best : Option (PathTrieNode α)) :
    List String → Option (PathTrieNode α) × Option (PathTrieNode α)
  | [] => (some node, best)
  | p :: rest =>
      let part := decodeURIComponent p
      let best' := if best.isNone && carriesChain (node.childGet "**")
        then node.childGet "**" else best
      let child := match node.childGet part with
        | some c => some c
        | none => node.childGet "*"
      match child with
      | some c => specGetLoop c best' rest
      | none => (none, best')

/-- The spec's `lookup`: the terminal node if it carries a chain,
otherwise the tracked fallback if it carries one, otherwise none. -/
def specLookup {α : Type} (root : PathTrieNode α) (pathParts : List String) :
    Option (PathTrieNode α) :=
  match specGetLoop root none pathParts with
  | (some n, best) =>
      if n.handlers.isSome then some n
      else if carriesChain best then best else none
  | (none, best) => if carriesChain best then best else none

/-- Along the walk of `get` for `pathParts`, every `**` child of a
visited node carries a handler chain.  (True of every trie built from
registrations that use `**` only as a final segment; the amended C3
shows `get` agrees with the spec's description exactly under this
condition.) -/
def walkGlobsCarry {α : Type} (node : PathTrieNode α) : List String → Bool
  | [] => true
  | p :: rest =>
      (match node.childGet "**" with
       | some g => g.handlers.isSome
       | none => true) &&
      (match (match node.childGet (decodeURIComponent p) with
              | some c => some c
              | none => node.childGet "*") with
       | some c => walkGlobsCarry c rest
       | none => true)

/-! ### Auxiliary notions for stating insertion properties -/

/-- The child-key sequence along which `setLoop` walks for a processed
parts list: non-final empty ids are normalised to `*`, the final id is
kept as written (an empty final id binds the current node itself and
is excluded from the properties using this function). -/
def normIds : List ProcPart → List String
  | [] => []
  | [p] => [p.id]
  | p :: rest => (if p.id = "" then "*" else p.id) :: normIds rest

/-- Decides whether the final processed id is non-empty (so that the
insertion resolves to a child node, not to the walk's current node). -/
def lastIdNe : List ProcPart → Bool
  | [] => false
  | [p] => p.id ≠ ""
  | _ :: rest => lastIdNe rest

/-! ### Concrete fixtures used by the claim theorems

Each trie below is built through `PathTrie.set` from the exact
`pathParts` that `splitPath` produces for the route definition quoted
in the comment (checked by the `splitPath_*` theorems further down),
so every fixture is reachable through the registration API. -/

/-- Hook trie with chain `[0]` registered at `/todo/**` and chain `[1]`
registered at `/todo/100` (cf. `* /todo/**` and `* /todo/100`). -/
def tHook : PathTrieNode Nat :=
  (PathTrie.set [1] [("todo", none), ("100", none)]
    (PathTrie.set [0] [("todo", none), ("**", none)] (rootNode Nat)).2).2

/-- Trie with chain `[0]` registered at `/todo/**`. -/
def tTodo : PathTrieNode Nat :=
  (PathTrie.set [0] [("todo", none), ("**", none)] (rootNode Nat)).2

/-- Trie with chain `[0]` registered at `/**/x` — accepted by the
segment regex of `set` (which places no positional restriction on
`**`), leaving an interior `**` node that carries no chain. -/
def tGlobX : PathTrieNode Nat :=
  (PathTrie.set [0] [("**", none), ("x", none)] (rootNode Nat)).2

/-- Trie with chain `[0]` at `/a/b` and chain `[1]` at `/a/*`. -/
def tLitGlob : PathTrieNode Nat :=
  (PathTrie.set [1] [("a", none), ("*", none)]
    (PathTrie.set [0] [("a", none), ("b", none)] (rootNode Nat)).2).2

/-- Trie with chain `[0]` at `/a/b/c` (making `/a/b` an interior node
without a chain). -/
def tABC : PathTrieNode Nat :=
  (PathTrie.set [0] [("a", none), ("b", none), ("c", none)] (rootNode Nat)).2

/-- Embeds `tABC` after additionally registering chain `[1]` at `/a/b:id`
(segment `b` binding parameter `id`), whose final node already exists
as an interior node. -/
def tABint : PathTrieNode Nat :=
  (PathTrie.set [1] [("a", none), ("b", some "id")] tABC).2

/-- A handler producing a `Response` with the given status. -/
def hRespond (st : Nat) : Handler := fun _ => .response ⟨st, none⟩

/-- A handler returning `undefined` (the pipeline continues). -/
def hPass : Handler := fun _ => .pass

/-- Empty per-method tries (`initRoutes`). -/
def emptyPerMethod : String → PathTrieNode Handler := fun _ => rootNode Handler

/-- Router with a filter at `GET /x` answering 201 and a hook at
`GET /x` answering 202 (for every method; only GET is exercised). -/
def rC2 : RouterM :=
  { filterF := fun _ => (PathTrie.set [hRespond 201] [("x", none)] (rootNode Handler)).2
    hookF := fun _ => (PathTrie.set [hRespond 202] [("x", none)] (rootNode Handler)).2
    handlerF := emptyPerMethod
    fallbackF := emptyPerMethod
    catcherF := emptyPerMethod }

/-- Embeds `rC2` with the hook replaced by one that produces no response. -/
def rC2pass : RouterM :=
  { rC2 with hookF := fun _ => (PathTrie.set [hPass] [("x", none)] (rootNode Handler)).2 }

/-- Router with a two-handler chain at `GET /x` in the handler stage,
neither handler producing a response. -/
def rC6 : RouterM :=
  { filterF := emptyPerMethod
    hookF := emptyPerMethod
    handlerF := fun _ => (PathTrie.set [hPass, hPass] [("x", none)] (rootNode Handler)).2
    fallbackF := emptyPerMethod
    catcherF := emptyPerMethod }

/-- Embeds `rC6` with a three-handler chain instead. -/
def rC6three : RouterM :=
  { rC6 with
    handlerF := fun _ => (PathTrie.set [hPass, hPass, hPass] [("x", none)] (rootNode Handler)).2 }

/-- A router with no registrations at all. -/
def rEmpty : RouterM :=
  ⟨emptyPerMethod, emptyPerMethod, emptyPerMethod, emptyPerMethod, emptyPerMethod⟩

/-- An empty registration state (one route type of a fresh router). -/
def regSt0 : RegState Nat := ⟨[], fun _ => rootNode Nat⟩

/-- State after successfully registering `GET /a` with chain `[0]`. -/
def regSt1 : RegState Nat := (handleOne "GET /a" [0] regSt0).2

/-- State after additionally attempting `GET /a` with chain `[1]`,
which conflicts during trie insertion. -/
def regSt2 : RegState Nat := (handleOne "GET /a" [1] regSt1).2

/-! ## Theorems -/

/-! ### Association-list and structural helper lemmas -/

theorem lookup_assocSet_self {β : Type} (l : List (String × β)) (k : String) (v : β) :
    (assocSet l k v).lookup k = some v := by
  induction l with
  | nil => simp [assocSet, List.lookup]
  | cons hd tl ih =>
      obtain ⟨k', v'⟩ := hd
      by_cases h : k' = k
      · simp [assocSet, h, List.lookup]
      · simp only [assocSet, if_neg h, List.lookup]
        have : (k == k') = false := by
          simp [beq_iff_eq]; exact fun he => h he.symm
        simp [this, ih]

theorem assocSet_of_lookup_eq {β : Type} (l : List (String × β)) (k : String) (v : β)
    (h : l.lookup k = some v) : assocSet l k v = l := by
  induction l with
  | nil => simp [List.lookup] at h
  | cons hd tl ih =>
      obtain ⟨k', v'⟩ := hd
      by_cases hk : k' = k
      · subst hk
        simp [List.lookup] at h
        simp [assocSet, h]
      · have : (k == k') = false := by
          simp [beq_iff_eq]; exact fun he => hk he.symm
        simp only [List.lookup, this] at h
        simp only [assocSet, if_neg hk]
        rw [ih h]

theorem node_eta {α : Type} (n : PathTrieNode α) :
    PathTrieNode.node n.children n.path n.id n.handlers n.params = n := by
  cases n; rfl

theorem childSet_lookup_eq {α : Type} (n c : PathTrieNode α) (k : String)
    (h : n.childGet k = some c) : n.childSet k c = n := by
  unfold PathTrieNode.childSet
  rw [assocSet_of_lookup_eq _ _ _ h]
  exact node_eta n

theorem getLoop_leaf {α : Type} (n : PathTrieNode α) (best : Option (PathTrieNode α))
    (ps : List String) (h : n.children = []) :
    PathTrie.getLoop n best ps =
      match ps with
      | [] => (some n, best)
      | _ :: _ => (none, best) := by
  cases ps with
  | nil => rfl
  | cons p rest =>
      simp [PathTrie.getLoop, PathTrieNode.childGet, h, List.lookup]

/-! ### Registration-reachability of the fixtures -/

theorem splitPath_todo_glob : splitPath " /todo/**" = [[("todo", none), ("**", none)]] := by
  decide

theorem splitPath_todo_100 : splitPath " /todo/100" = [[("todo", none), ("100", none)]] := by
  decide

theorem splitPath_x : splitPath " /x" = [[("x", none)]] := by decide

theorem splitPath_a_b : splitPath " /a/b" = [[("a", none), ("b", none)]] := by decide

theorem splitPath_glob_x : splitPath " /**/x" = [[("**", none), ("x", none)]] := by decide

theorem splitPath_b_id : splitPath " /a/b:id" = [[("a", none), ("b", some "id")]] := by decide

/-! ### C1 — hook multi-match order -/

/-- Claim C1 is false as stated: with hooks `[0]` at `/todo/**` and
`[1]` at `/todo/100`, `getAll` on `/todo/100` returns the exact chain
*first* and the greedy-wildcard chain *second* — the source pushes the
`**` child of the final level after the exact/`*` children. -/
theorem c1_hook_order_counterexample :
    (PathTrie.getAll tHook ["todo", "100"]).filterMap PathTrieNode.handlers = [[1], [0]] ∧
    ([[1], [0]] : List (List Nat)) ≠ [[0], [1]] := by
  exact ⟨by decide, by decide⟩

/-- Claim C1, amended: `getAll` collects `**` chains of strictly
shallower levels before deeper matches, but a `**` chain at the
terminal's own level is appended *after* the exact chain; a request to
`/todo/103` invokes only the `/todo/**` hook, and `/todo/100` invokes
both with the exact `100` hook first, then the `**` hook. -/
theorem c1_hook_order_amended :
    (PathTrie.getAll tHook ["todo", "103"]).filterMap PathTrieNode.handlers = [[0]] ∧
    (PathTrie.getAll tHook ["todo", "100"]).filterMap PathTrieNode.handlers = [[1], [0]] := by
  exact ⟨by decide, by decide⟩

/-! ### C5 — greedy wildcard and the zero-segment suffix -/

/-- Claim C5 is false as stated: with `[0]` registered at `/todo/**`,
a request for `/todo` (zero segments after the prefix) does not
resolve to the chain — `get` returns nothing — although `/todo/x`
does. -/
theorem c5_greedy_zero_counterexample :
    (PathTrie.get tTodo ["todo"]).isSome = false ∧
    (PathTrie.get tTodo ["todo", "x"]).bind PathTrieNode.handlers = some [0] := by
  exact ⟨by decide, by decide⟩

/-! ### C6 — per-stage call counters (code bug) -/

/-- Claim C6 names the intended behaviour; the code disagrees: the
handler stage's counter accumulates `1 + 2 + ... + n` instead of `n`.
A two-handler chain run to completion records `handleCount = 3`, a
three-handler chain records `6` (both finalize 204). -/
theorem c6_triangular_counters :
    ((handleRequest rC6 "GET" "/x").toOption.map
      (fun rc => (rc.1.status, rc.2.handleCount)) = some (204, 3)) ∧
    ((handleRequest rC6three "GET" "/x").toOption.map
      (fun rc => (rc.1.status, rc.2.handleCount)) = some (204, 6)) := by
  exact ⟨by decide, by decide⟩

/-! ### C8 — empty segments in the pattern compiler -/

/-- Claim C8 is false as stated: the template `/a//b` compiles to the
two-segment sequence `a, b` — empty segments produced by slashes are
dropped by `.filter(Boolean)`, not normalised to `*`. -/
theorem c8_empty_segment_counterexample :
    splitPath "/a//b" = [[("a", none), ("b", none)]] ∧
    splitPath "/a//b" ≠ [[("a", none), ("*", none), ("b", none)]] := by
  exact ⟨by decide, by decide⟩

/-- Claim C8, amended: an empty segment produced by a leading,
trailing or consecutive slash is dropped; only a segment that is
empty after stripping its `:name` parameter suffix (a segment of the
form `:name`) is normalised to the wildcard `*`, keeping the
binding. -/
theorem c8_empty_segment_amended :
    splitPath "/a//b" = [[("a", none), ("b", none)]] ∧
    splitPath "/a/:id/b" = [[("a", none), ("*", some "id"), ("b", none)]] ∧
    splitPath "/a/" = [[("a", none)]] := by
  exact ⟨by decide, by decide, by decide⟩

/-! ### C2 — filter-stage short-circuiting -/

/-- Claim C2 is false as stated: with a filter at `GET /x` producing a
201 response and a hook at `GET /x` producing a 202 response, the hook
still runs (`hookCount = 1`) and its response — not the filter's — is
finalized. -/
theorem c2_filter_shortcircuit_counterexample :
    ((handleRequest rC2 "GET" "/x").toOption.map
      (fun rc => (rc.1.status, rc.2.hookCount)) = some (202, 1)) ∧
    ((handleRequest rC2 "GET" "/x").toOption.map
      (fun rc => (rc.1.status, rc.2.hookCount)) ≠ some (201, 0)) := by
  exact ⟨by decide, by decide⟩

/-! ### C3 — single-best lookup vs the spec's description -/

/-- Claim C3 is false as stated: in the trie of `/**/x` the walk for
`/zzz` encounters no `**` child carrying a chain, so the claim
mandates no match, yet `get` returns the chainless interior `**` node
(the source tracks and returns the first `**` child without checking
for a chain). -/
theorem c3_single_best_counterexample :
    (PathTrie.get tGlobX ["zzz"]).isSome = true ∧
    (PathTrie.get tGlobX ["zzz"]).bind PathTrieNode.handlers = none ∧
    (specLookup tGlobX ["zzz"]).isSome = false := by
  exact ⟨by decide, by decide, by decide⟩

/-! ### C7 — parameter maps on pre-existing final nodes -/

/-- Claim C7 is false as stated: registering `/a/b:id` after `/a/b/c`
succeeds and binds the chain at the existing interior node `/a/b`, but
the parameter map is *not* attached there (only freshly created final
nodes receive it). -/
theorem c7_params_counterexample :
    (PathTrie.set [1] [("a", none), ("b", some "id")] tABC).1 = none ∧
    (walkNode tABint ["a", "b"]).bind PathTrieNode.handlers = some [1] ∧
    (walkNode tABint ["a", "b"]).bind PathTrieNode.params = none := by
  exact ⟨by decide, by decide, by decide⟩

/-! ### C9 — unsupported request methods -/

/-- Claim C9 is false as stated: for the unsupported method `TRACE`
the dispatcher raises a `RouterError` carrying no status, the catch
path records it and adopts the generic 500 — not a 404/400-equivalent
— and then crashes with a `TypeError` while indexing the catcher
record with the unknown method, so no response is finalized at all:
`handleRequest` rejects. -/
theorem c9_method_counterexample :
    handleRequest rEmpty "TRACE" "/x" =
      .error (JErr.typeError "Cannot read properties of undefined",
        { statusCode := 500,
          error := some (JErr.router "method TRACE not supported") }) := by
  rfl


theorem percentDecodeAux_no_percent :
    ∀ (l : List Char), (∀ c ∈ l, c ≠ '%') → percentDecodeAux l = l := by
  intro l
  induction l using percentDecodeAux.induct with
  | case1 => intro _; rfl
  | case2 a b rest ha hb h1 h2 ih =>
      intro h
      exact absurd rfl (h '%' (by simp))
  | case3 a b rest hno ih =>
      intro h
      exact absurd rfl (h '%' (by simp))
  | case4 c rest hno ih =>
      intro h
      have hcs : ∀ x ∈ rest, x ≠ '%' := fun x hx => h x (by simp [hx])
      rw [percentDecodeAux.eq_def]
      split
      · rename_i heq
        exact absurd heq (List.cons_ne_nil c rest)
      · rename_i a b r heq
        rw [List.cons_eq_cons] at heq
        exact absurd (hno a b r heq.1 heq.2) (by simp)
      · rename_i c' r heq
        rw [List.cons_eq_cons] at heq
        obtain ⟨h1, h2⟩ := heq
        subst h1
        subst h2
        rw [ih hcs]

theorem decodeURIComponent_of_no_percent (s : String)
    (h : strContainsChar s '%' = false) : decodeURIComponent s = s := by
  have h' : ∀ c ∈ s.data, c ≠ '%' := by
    intro c hc hceq
    subst hceq
    unfold strContainsChar at h
    rw [List.any_eq_false] at h
    exact absurd (by simp) (h _ hc)
  unfold decodeURIComponent
  rw [percentDecodeAux_no_percent s.data h']

/-- Claim C5, amended (revised): restricted to percent-free request
segments, on which the embedded decoder provably agrees with the JS
builtin (identity, no URIError): after registering the chain at
`/todo/**`, every request `/todo/<s>/<rest...>` with percent-free
segments resolves to that chain — any suffix of at least one segment —
while a request for `/todo` itself (zero remaining segments) yields no
match. -/
theorem c5_greedy_zero_amended :
    (∀ (s : String) (rest : List String),
      strContainsChar s '%' = false →
      (∀ q ∈ rest, strContainsChar q '%' = false) →
      (PathTrie.get tTodo ("todo" :: s :: rest)).bind PathTrieNode.handlers = some [0]) ∧
    (PathTrie.get tTodo ["todo"]).isSome = false := by
  constructor
  · intro s rest hs _hrest
    have hdec : decodeURIComponent s = s := decodeURIComponent_of_no_percent s hs
    have h1 : PathTrie.getLoop tTodo none ("todo" :: s :: rest) =
        PathTrie.getLoop
          (PathTrieNode.node
            [("**", PathTrieNode.node [] (some "/todo/**") (some "**") (some [0]) (some []))]
            (some "/todo") (some "todo") none none)
          none (s :: rest) := rfl
    have hleaf := getLoop_leaf
      (PathTrieNode.node ([] : List (String × PathTrieNode Nat))
        (some "/todo/**") (some "**") (some [0]) (some []))
    unfold PathTrie.get
    rw [h1]
    by_cases hd : s = "**"
    · have hd' : decodeURIComponent s = "**" := by rw [hdec, hd]
      have h2 : PathTrie.getLoop
          (PathTrieNode.node
            [("**", PathTrieNode.node [] (some "/todo/**") (some "**") (some [0]) (some []))]
            (some "/todo") (some "todo") none none)
          none (s :: rest) =
          PathTrie.getLoop
            (PathTrieNode.node [] (some "/todo/**") (some "**") (some [0]) (some []))
            (some (PathTrieNode.node [] (some "/todo/**") (some "**") (some [0]) (some [])))
            rest := by
        simp [PathTrie.getLoop, PathTrieNode.childGet, PathTrieNode.children, List.lookup, hd']
      rw [h2, hleaf _ rest rfl]
      cases rest <;> simp [PathTrieNode.handlers]
    · have h2 : PathTrie.getLoop
          (PathTrieNode.node
            [("**", PathTrieNode.node [] (some "/todo/**") (some "**") (some [0]) (some [])) ]
            (some "/todo") (some "todo") none none)
          none (s :: rest) =
          (none, some (PathTrieNode.node [] (some "/todo/**") (some "**") (some [0]) (some []))) := by
        have hne : (decodeURIComponent s == "**") = false := by
          rw [hdec]
          simp [beq_iff_eq]; exact hd
        simp [PathTrie.getLoop, PathTrieNode.childGet, PathTrieNode.children, List.lookup, hne]
      rw [h2]
      simp [PathTrieNode.handlers]
  · decide

/-- Witness for the amended C5 at the percent-free segments `103`, `x`. -/
theorem c5_greedy_zero_witness :
    (PathTrie.get tTodo ["todo", "103", "x"]).bind PathTrieNode.handlers = some [0] :=
  c5_greedy_zero_amended.1 "103" ["x"] (by decide) (by decide)


theorem getLoop_eq_spec {α : Type} :
    ∀ (ps : List String) (node : PathTrieNode α) (best : Option (PathTrieNode α)),
    walkGlobsCarry node ps = true →
    (best.isNone || carriesChain best) = true →
    PathTrie.getLoop node best ps = specGetLoop node best ps ∧
    ((PathTrie.getLoop node best ps).2.isNone ||
      carriesChain (PathTrie.getLoop node best ps).2) = true := by
  intro ps
  induction ps with
  | nil =>
      intro node best _ hb
      exact ⟨rfl, hb⟩
  | cons p rest ih =>
      intro node best hw hb
      simp only [walkGlobsCarry, Bool.and_eq_true] at hw
      obtain ⟨hg, hrec⟩ := hw
      -- the tracked fallback is the same on both sides and carries a chain
      have hbest :
          (if best.isNone && (node.childGet "**").isSome then node.childGet "**" else best) =
            (if best.isNone && carriesChain (node.childGet "**") then node.childGet "**" else best) ∧
          ((if best.isNone && (node.childGet "**").isSome then node.childGet "**" else best).isNone ||
            carriesChain
              (if best.isNone && (node.childGet "**").isSome then node.childGet "**" else best)) = true := by
        cases best with
        | some b => simp [Option.isNone] at hb ⊢; exact hb
        | none =>
            cases hgg : node.childGet "**" with
            | none => simp [carriesChain]
            | some g =>
                rw [hgg] at hg
                have hg' : g.handlers.isSome = true := hg
                constructor
                · simp [carriesChain, hg']
                · simp [carriesChain, hg']
      simp only [PathTrie.getLoop, specGetLoop]
      rw [← hbest.1]
      cases hc : (match node.childGet (decodeURIComponent p) with
                  | some c => some c
                  | none => node.childGet "*") with
      | some c =>
          rw [hc] at hrec
          exact ih c _ hrec hbest.2
      | none =>
          exact ⟨rfl, hbest.2⟩

/-- Claim C3, amended: `get` walks preferring the exact child then the
`*` child, but tracks the *first* `**` child encountered regardless of
whether it carries a chain and returns it as the fallback even when
chainless; whenever every `**` child met along the walk carries a
chain (in particular for tries whose `**` nodes are all
registration-final), `get` coincides with the spec's described
algorithm, and the literal-beats-wildcard consequence holds:
with `/a/b ↦ [0]` and `/a/* ↦ [1]`, `/a/b` resolves to `[0]`. -/
theorem c3_single_best_amended :
    (∀ {α : Type} (root : PathTrieNode α) (ps : List String),
      walkGlobsCarry root ps = true →
      PathTrie.get root ps = specLookup root ps) ∧
    (PathTrie.get tLitGlob ["a", "b"]).bind PathTrieNode.handlers = some [0] := by
  constructor
  · intro α root ps hw
    have h := getLoop_eq_spec ps root none hw (by simp)
    unfold PathTrie.get specLookup
    rw [← h.1]
    obtain ⟨heq, hinv⟩ := h
    cases hr : PathTrie.getLoop root none ps with
    | mk fst snd =>
        rw [hr] at hinv
        cases fst with
        | some n =>
            by_cases hh : n.handlers.isSome
            · simp [hh]
            · simp only [hh, if_false, Bool.false_eq_true]
              cases snd with
              | none => simp [carriesChain]
              | some b =>
                  simp only [Option.isNone, Bool.false_or] at hinv
                  simp [hinv]
        | none =>
            cases snd with
            | none => simp [carriesChain]
            | some b =>
                simp only [Option.isNone, Bool.false_or] at hinv
                simp [hinv]
  · decide

/-- Witness for the amended C3 at the literal-vs-wildcard trie, whose
walk for `/a/b` meets no `**` child. -/
theorem c3_single_best_witness :
    PathTrie.get tLitGlob ["a", "b"] = specLookup tLitGlob ["a", "b"] :=
  c3_single_best_amended.1 tLitGlob ["a", "b"] (by decide)


theorem procPathAux_ok_length (pp : List (String × Option String)) :
    ∀ (l : List (String × Option String)) (i : Nat) (acc : List ProcPart)
      (par : List (String × String × Nat)) (r : List ProcPart × List (String × String × Nat)),
    procPathAux pp i l acc par = (none, r) → r.1.length = acc.length + l.length := by
  intro l
  induction l with
  | nil =>
      intro i acc par r h
      simp only [procPathAux] at h
      have hr : (acc, par) = r := congrArg Prod.snd h
      rw [← hr]
      simp
  | cons hd tl ih =>
      intro i acc par r h
      obtain ⟨part, paramId⟩ := hd
      simp only [procPathAux] at h
      by_cases hv : partValid part = true
      · rw [if_pos hv] at h
        have := ih (i + 1) (acc ++ [⟨subPathAt pp i, part⟩]) _ r h
        simp at this
        simp [this]
        omega
      · rw [if_neg hv] at h
        exact absurd (congrArg Prod.fst h) (by simp)

theorem setLoop_conflict {α : Type} :
    ∀ (parts : List ProcPart) (hs1 hs2 : List α)
      (pr1 pr2 : List (String × String × Nat)) (node node1 : PathTrieNode α),
    parts ≠ [] →
    PathTrie.setLoop hs1 pr1 node parts = (none, node1) →
    ∃ m, PathTrie.setLoop hs2 pr2 node1 parts = (some m, node1) := by
  intro parts
  induction parts with
  | nil => intro _ _ _ _ _ _ hne _; exact absurd rfl hne
  | cons p rest ih =>
      intro hs1 hs2 pr1 pr2 node node1 _ h
      cases rest with
      | nil =>
          simp only [PathTrie.setLoop] at h ⊢
          by_cases hid : p.id = ""
          · rw [if_pos hid] at h ⊢
            unfold PathTrie.bindHandlers at h
            cases hnh : node.handlers with
            | some hsx =>
                rw [hnh] at h
                dsimp only at h
                exact absurd (congrArg Prod.fst h) (by simp)
            | none =>
                rw [hnh] at h
                dsimp only at h
                have hn := congrArg Prod.snd h
                dsimp only at hn
                rw [← hn]
                have hb : PathTrie.bindHandlers hs2
                    ((node.withHandlers (some hs1)).withParamsId (some pr1) (some "")) =
                    (some ("Overriding " ++
                      (((node.withHandlers (some hs1)).withParamsId (some pr1) (some "")).path.getD "")),
                     (node.withHandlers (some hs1)).withParamsId (some pr1) (some "")) := rfl
                rw [hb]
                exact ⟨_, rfl⟩
          · rw [if_neg hid] at h ⊢
            cases hc : node.childGet p.id with
            | some child =>
                rw [hc] at h
                dsimp only at h
                unfold PathTrie.bindHandlers at h
                cases hch : child.handlers with
                | some hsx =>
                    rw [hch] at h
                    dsimp only at h
                    exact absurd (congrArg Prod.fst h) (by simp)
                | none =>
                    rw [hch] at h
                    dsimp only at h
                    have hn := congrArg Prod.snd h
                    dsimp only at hn
                    rw [← hn]
                    have hlook : ((node.childSet p.id (child.withHandlers (some hs1)))).childGet p.id =
                        some (child.withHandlers (some hs1)) := by
                      simp [PathTrieNode.childSet, PathTrieNode.childGet,
                        PathTrieNode.children, lookup_assocSet_self]
                    rw [hlook]
                    dsimp only
                    have hb : PathTrie.bindHandlers hs2 (child.withHandlers (some hs1)) =
                        (some ("Overriding " ++ ((child.withHandlers (some hs1)).path.getD "")),
                         child.withHandlers (some hs1)) := rfl
                    rw [hb]
                    dsimp only
                    rw [childSet_lookup_eq _ _ _ hlook]
                    exact ⟨_, rfl⟩
            | none =>
                rw [hc] at h
                dsimp only at h
                have hb1 : PathTrie.bindHandlers hs1
                    (PathTrieNode.node [] (some p.path) (some p.id) none (some pr1)) =
                    (none, (PathTrieNode.node [] (some p.path) (some p.id) none (some pr1)).withHandlers
                      (some hs1)) := rfl
                rw [hb1] at h
                dsimp only at h
                have hn := congrArg Prod.snd h
                dsimp only at hn
                rw [← hn]
                have hlook : ((node.childSet p.id
                      ((PathTrieNode.node [] (some p.path) (some p.id) none (some pr1)).withHandlers
                        (some hs1)))).childGet p.id =
                    some ((PathTrieNode.node [] (some p.path) (some p.id) none (some pr1)).withHandlers
                      (some hs1)) := by
                  simp [PathTrieNode.childSet, PathTrieNode.childGet,
                    PathTrieNode.children, lookup_assocSet_self]
                rw [hlook]
                dsimp only
                have hb2 : PathTrie.bindHandlers hs2
                    ((PathTrieNode.node [] (some p.path) (some p.id) none (some pr1)).withHandlers (some hs1)) =
                    (some ("Overriding " ++
                      (((PathTrieNode.node [] (some p.path) (some p.id) none (some pr1)).withHandlers
                        (some hs1)).path.getD "")),
                     (PathTrieNode.node [] (some p.path) (some p.id) none (some pr1)).withHandlers
                       (some hs1)) := rfl
                rw [hb2]
                dsimp only
                rw [childSet_lookup_eq _ _ _ hlook]
                exact ⟨_, rfl⟩
      | cons q qs =>
          simp only [PathTrie.setLoop] at h ⊢
          cases hc : node.childGet (if p.id = "" then "*" else p.id) with
          | some child =>
              rw [hc] at h
              dsimp only at h
              cases hr : PathTrie.setLoop hs1 pr1 child (q :: qs) with
              | mk e t' =>
                  rw [hr] at h
                  dsimp only at h
                  have he : e = none := congrArg Prod.fst h
                  have hn : node.childSet (if p.id = "" then "*" else p.id) t' = node1 :=
                    congrArg Prod.snd h
                  subst he
                  obtain ⟨m, hm⟩ := ih hs1 hs2 pr1 pr2 child t' (by simp) hr
                  rw [← hn]
                  have hlook : ((node.childSet (if p.id = "" then "*" else p.id) t')).childGet
                      (if p.id = "" then "*" else p.id) = some t' := by
                    simp [PathTrieNode.childSet, PathTrieNode.childGet,
                      PathTrieNode.children, lookup_assocSet_self]
                  rw [hlook]
                  dsimp only
                  rw [hm]
                  dsimp only
                  rw [childSet_lookup_eq _ _ _ hlook]
                  exact ⟨m, rfl⟩
          | none =>
              rw [hc] at h
              dsimp only at h
              cases hr : PathTrie.setLoop hs1 pr1
                  (PathTrieNode.node [] (some p.path) (some (if p.id = "" then "*" else p.id)) none none)
                  (q :: qs) with
              | mk e t' =>
                  rw [hr] at h
                  dsimp only at h
                  have he : e = none := congrArg Prod.fst h
                  have hn : node.childSet (if p.id = "" then "*" else p.id) t' = node1 :=
                    congrArg Prod.snd h
                  subst he
                  obtain ⟨m, hm⟩ := ih hs1 hs2 pr1 pr2 _ t' (by simp) hr
                  rw [← hn]
                  have hlook : ((node.childSet (if p.id = "" then "*" else p.id) t')).childGet
                      (if p.id = "" then "*" else p.id) = some t' := by
                    simp [PathTrieNode.childSet, PathTrieNode.childGet,
                      PathTrieNode.children, lookup_assocSet_self]
                  rw [hlook]
                  dsimp only
                  rw [hm]
                  dsimp only
                  rw [childSet_lookup_eq _ _ _ hlook]
                  exact ⟨m, rfl⟩

/-- Claim C4: after a successful registration of chain `hs1` at a
non-empty concrete path, a second registration resolving to the same
node raises a conflict (`replaceFn` throws before assigning) and the
trie — hence the previously bound chain — is left exactly as it was,
so lookups are unchanged. -/
theorem c4_conflict_preserved {α : Type} :
    ∀ (ps : List (String × Option String)) (hs1 hs2 : List α) (t t1 : PathTrieNode α),
    ps ≠ [] →
    PathTrie.set hs1 ps t = (none, t1) →
    ∃ m, PathTrie.set hs2 ps t1 = (some m, t1) := by
  intro ps hs1 hs2 t t1 hne h
  unfold PathTrie.set at h ⊢
  cases hp : procPath ps with
  | mk e pp =>
      rw [hp] at h
      cases e with
      | some msg =>
          dsimp only at h
          exact absurd (congrArg Prod.fst h) (by simp)
      | none =>
          obtain ⟨parts, params⟩ := pp
          dsimp only at h
          dsimp only
          have hlen := procPathAux_ok_length ps ps 0 [] [] (parts, params) hp
          have hpne : parts ≠ [] := by
            intro hnil
            rw [hnil] at hlen
            simp at hlen
            exact hne (List.length_eq_zero.mp hlen.symm)
          exact setLoop_conflict parts hs1 hs2 params params t t1 hpne h

/-- Witness for C4: registering `GET /a/b` twice — the second call
fails with a conflict and the trie still carries the first chain. -/
theorem c4_conflict_preserved_witness :
    ∃ m, PathTrie.set [1] [("a", none), ("b", none)]
        (PathTrie.set [0] [("a", none), ("b", none)] (rootNode Nat)).2 =
      (some m, (PathTrie.set [0] [("a", none), ("b", none)] (rootNode Nat)).2) :=
  c4_conflict_preserved [("a", none), ("b", none)] [0] [1] (rootNode Nat)
    (PathTrie.set [0] [("a", none), ("b", none)] (rootNode Nat)).2
    (by decide) (by rfl)


theorem normIds_ne_nil (parts : List ProcPart) (h : parts ≠ []) : normIds parts ≠ [] := by
  cases parts with
  | nil => exact absurd rfl h
  | cons p rest => cases rest <;> simp [normIds]

theorem setLoop_fresh {α : Type} :
    ∀ (parts : List ProcPart) (hs : List α) (pr : List (String × String × Nat))
      (node : PathTrieNode α),
    lastIdNe parts = true →
    walkNode node (normIds parts) = none →
    (PathTrie.setLoop hs pr node parts).1 = none ∧
    ∃ nd, walkNode (PathTrie.setLoop hs pr node parts).2 (normIds parts) = some nd ∧
      nd.handlers = some hs ∧ nd.params = some pr := by
  intro parts
  induction parts with
  | nil => intro hs pr node hl _; simp [lastIdNe] at hl
  | cons p rest ih =>
      intro hs pr node hl hw
      cases rest with
      | nil =>
          have hid : ¬ p.id = "" := by simpa [lastIdNe] using hl
          have hc : node.childGet p.id = none := by
            cases hcc : node.childGet p.id with
            | none => rfl
            | some c =>
                unfold normIds walkNode at hw
                rw [hcc] at hw
                dsimp only [walkNode] at hw
                exact absurd hw (by simp)
          simp only [PathTrie.setLoop]
          rw [if_neg hid, hc]
          dsimp only
          have hb : PathTrie.bindHandlers hs
              (PathTrieNode.node [] (some p.path) (some p.id) none (some pr)) =
              (none, (PathTrieNode.node [] (some p.path) (some p.id) none (some pr)).withHandlers
                (some hs)) := rfl
          rw [hb]
          dsimp only
          refine ⟨rfl, ?_⟩
          have hlook : ((node.childSet p.id
                ((PathTrieNode.node [] (some p.path) (some p.id) none (some pr)).withHandlers
                  (some hs)))).childGet p.id =
              some ((PathTrieNode.node [] (some p.path) (some p.id) none (some pr)).withHandlers
                (some hs)) := by
            simp [PathTrieNode.childSet, PathTrieNode.childGet,
              PathTrieNode.children, lookup_assocSet_self]
          refine ⟨(PathTrieNode.node [] (some p.path) (some p.id) none
            (some pr)).withHandlers (some hs), ?_, rfl, rfl⟩
          unfold normIds walkNode
          rw [hlook]
          rfl
      | cons q qs =>
          have hl' : lastIdNe (q :: qs) = true := hl
          have hnorm : normIds (p :: q :: qs) =
              (if p.id = "" then "*" else p.id) :: normIds (q :: qs) := rfl
          rw [hnorm] at hw
          cases hcc : node.childGet (if p.id = "" then "*" else p.id) with
          | some c =>
              unfold walkNode at hw
              rw [hcc] at hw
              dsimp only at hw
              obtain ⟨h1, nd, h2, h3, h4⟩ := ih hs pr c hl' hw
              simp only [PathTrie.setLoop]
              rw [hcc]
              dsimp only
              refine ⟨h1, nd, ?_, h3, h4⟩
              rw [hnorm]
              have hlook : ((node.childSet (if p.id = "" then "*" else p.id)
                    (PathTrie.setLoop hs pr c (q :: qs)).2)).childGet
                  (if p.id = "" then "*" else p.id) =
                  some (PathTrie.setLoop hs pr c (q :: qs)).2 := by
                simp [PathTrieNode.childSet, PathTrieNode.childGet,
                  PathTrieNode.children, lookup_assocSet_self]
              unfold walkNode
              rw [hlook]
              exact h2
          | none =>
              have hw0 : walkNode
                  (PathTrieNode.node [] (some p.path) (some (if p.id = "" then "*" else p.id))
                    none none : PathTrieNode α) (normIds (q :: qs)) = none := by
                cases hnn : normIds (q :: qs) with
                | nil => exact absurd hnn (normIds_ne_nil _ (by simp))
                | cons k ks =>
                    unfold walkNode
                    simp [PathTrieNode.childGet, PathTrieNode.children, List.lookup]
              obtain ⟨h1, nd, h2, h3, h4⟩ := ih hs pr _ hl' hw0
              simp only [PathTrie.setLoop]
              rw [hcc]
              dsimp only
              refine ⟨h1, nd, ?_, h3, h4⟩
              rw [hnorm]
              have hlook : ((node.childSet (if p.id = "" then "*" else p.id)
                    (PathTrie.setLoop hs pr
                      (PathTrieNode.node [] (some p.path)
                        (some (if p.id = "" then "*" else p.id)) none none) (q :: qs)).2)).childGet
                  (if p.id = "" then "*" else p.id) =
                  some (PathTrie.setLoop hs pr
                    (PathTrieNode.node [] (some p.path)
                      (some (if p.id = "" then "*" else p.id)) none none) (q :: qs)).2 := by
                simp [PathTrieNode.childSet, PathTrieNode.childGet,
                  PathTrieNode.children, lookup_assocSet_self]
              unfold walkNode
              rw [hlook]
              exact h2

/-- Claim C7, amended: when the resolved final node does not yet exist
in the trie (and the final segment id is non-empty, so the insertion
resolves to a child node), `set` succeeds and the final node carries
*both* the handler chain and the registration's parameter map; when
the final node already exists (for instance as an interior node of an
earlier longer registration), only the chain is attached and the
parameter map is not (see the counterexample). -/
theorem c7_params_amended {α : Type} :
    ∀ (ps : List (String × Option String)) (hs : List α)
      (parts : List ProcPart) (pr : List (String × String × Nat)) (t : PathTrieNode α),
    procPath ps = (none, parts, pr) →
    lastIdNe parts = true →
    walkNode t (normIds parts) = none →
    (PathTrie.set hs ps t).1 = none ∧
    ∃ nd, walkNode (PathTrie.set hs ps t).2 (normIds parts) = some nd ∧
      nd.handlers = some hs ∧ nd.params = some pr := by
  intro ps hs parts pr t hp hl hw
  unfold PathTrie.set
  rw [hp]
  dsimp only
  exact setLoop_fresh parts hs pr t hl hw

/-- Witness for the amended C7: a fresh registration of `/a/b:id`
binds the chain and the parameter map `id ↦ index 1` at `/a/b`. -/
theorem c7_params_amended_witness :
    (PathTrie.set [0] [("a", none), ("b", some "id")] (rootNode Nat)).1 = none ∧
    ∃ nd, walkNode (PathTrie.set [0] [("a", none), ("b", some "id")] (rootNode Nat)).2
        ["a", "b"] = some nd ∧
      nd.handlers = some [0] ∧ nd.params = some [("id", ("b", 1))] :=
  c7_params_amended [("a", none), ("b", some "id")] [0]
    [⟨"/a", "a"⟩, ⟨"/a/b", "b"⟩] [("id", ("b", 1))] (rootNode Nat)
    (by rfl) (by rfl) (by rfl)


/-- Claim C2, amended: a filter-produced response does *not* stop the
hook stage — the hook trie is still consulted and its chains still run
(the `response == null` guard protects only the handler and fallback
stages) — and a hook-produced response replaces the filter's; the
filter's response is finalized only when no hook produces one.  Stated
for any router: if the filter stage yields response `a` and the hook
stage (still executed, with the counters showing it) yields `hr`, the
dispatcher finalizes `hr.getD a` without consulting the handler or
fallback tries. -/
theorem c2_filter_shortcircuit_amended :
    ∀ (r : RouterM) (m p : String) (a : Resp) (cf : Nat) (c1 : Ctx)
      (hr : Option Resp) (ch : Nat) (c2 : Ctx),
    REQUEST_METHODS_LIST.contains (strToUpper m) = true →
    handleRoute {} (r.filterT (strToUpper m)) (pathPartsOf p) true = (.ok (some a, cf), c1) →
    handleRoute { c1 with callCount := c1.callCount + cf, filterCount := cf }
        (r.hookT (strToUpper m)) (pathPartsOf p) true = (.ok (hr, ch), c2) →
    handleRequest r m p =
      .ok (hr.getD a, { c2 with callCount := c2.callCount + ch, hookCount := ch }) := by
  intro r m p a cf c1 hr ch c2 hm hf hh
  unfold handleRequest tryStages
  simp only [hm, eq_self_iff_true, not_true, if_false]
  rw [hf]
  dsimp only
  rw [hh]
  dsimp only
  cases hr with
  | some x => rfl
  | none => rfl

/-- Witness for the amended C2 on the concrete router `rC2`: the
filter answers 201, the hook still runs and its 202 wins. -/
theorem c2_filter_shortcircuit_witness :
    handleRequest rC2 "GET" "/x" =
      .ok (⟨202, none⟩, { callCount := 2, filterCount := 1, hookCount := 1 }) :=
  c2_filter_shortcircuit_amended rC2 "GET" "/x" ⟨201, none⟩ 1 {}
    (some ⟨202, none⟩) 1 { callCount := 1, filterCount := 1 }
    (by decide) (by rfl) (by rfl)

/-- Claim C9, amended: an unsupported method raises a `RouterError`
that carries *no* status, so the catch path adopts the generic 500
(not a 404/400-equivalent); it then indexes the catcher record with
the unknown method, obtaining `undefined`, and the catcher lookup
crashes with a `TypeError` — `handleRequest` rejects instead of
finalizing any response. -/
theorem c9_method_amended :
    ∀ (r : RouterM) (m p : String),
    REQUEST_METHODS_LIST.contains (strToUpper m) = false →
    handleRequest r m p =
      .error (JErr.typeError "Cannot read properties of undefined",
        { statusCode := StatusCode.InternalServerError,
          error := some (JErr.router ("method " ++ strToUpper m ++ " not supported")) }) := by
  intro r m p hm
  unfold handleRequest tryStages
  simp only [hm, Bool.false_eq_true, not_false_iff, if_true]
  unfold handleRoute RouterM.catcherT recordIndex
  simp only [hm, Bool.false_eq_true, if_false]
  rfl

/-- Witness for the amended C9 at the concrete method `CONNECT`. -/
theorem c9_method_witness :
    handleRequest rEmpty "CONNECT" "/y" =
      .error (JErr.typeError "Cannot read properties of undefined",
        { statusCode := StatusCode.InternalServerError,
          error := some (JErr.router "method CONNECT not supported") }) :=
  c9_method_amended rEmpty "CONNECT" "/y" (by decide)

/-- Claim C10: a registration whose parse succeeds but whose trie
insertion throws (conflict or invalid segment) has already appended
its `(route definition, handlers)` record to the per-route-type record
list, and the record is not rolled back; `append` then replays it.
The concrete part: after `GET /a ↦ [0]` succeeds and `GET /a ↦ [1]`
conflicts, both records are in the list, and appending that state
under base path `/p` into a fresh router replays both — re-binding the
first chain at `/p/a` and re-raising the conflict for the second. -/
theorem c10_record_retained :
    (∀ {α : Type} (mp : String) (hs : List α) (st : RegState α)
      (v : List String × List (List (String × Option String))) (e : String) (st' : RegState α),
      splitMethodPath (strTrim mp) = .ok v →
      handleOne mp hs st = (some e, st') →
      st'.sets = st.sets ++ [(mp, hs)]) ∧
    ((handleOne "GET /a" [1] regSt1).1.isSome = true ∧
      regSt2.sets = [("GET /a", [0]), ("GET /a", [1])] ∧
      (routerAppend "/p" regSt2.sets regSt0).1.isSome = true ∧
      (routerAppend "/p" regSt2.sets regSt0).2.sets =
        [("GET /p/a", [0]), ("GET /p/a", [1])] ∧
      (walkNode ((routerAppend "/p" regSt2.sets regSt0).2.routes "GET") ["p", "a"]).bind
        PathTrieNode.handlers = some [0]) := by
  constructor
  · intro α mp hs st v e st' hsp h
    unfold handleOne at h
    rw [hsp] at h
    dsimp only at h
    cases hi : insertAll hs v.2 v.1 st.routes with
    | mk eo routes' =>
        rw [hi] at h
        cases eo with
        | some msg =>
            dsimp only at h
            have hsnd := congrArg Prod.snd h
            dsimp only at hsnd
            rw [← hsnd]
        | none =>
            dsimp only at h
            exact absurd (congrArg Prod.fst h) (by simp)
  · refine ⟨by decide, by decide, by decide, by decide, by decide⟩

/-- Witness for C10: the conflicting second registration of `GET /a`
leaves its record appended after the first. -/
theorem c10_record_retained_witness :
    regSt2.sets = regSt1.sets ++ [("GET /a", [1])] :=
  c10_record_retained.1 "GET /a" [1] regSt1 (["GET"], [[("a", none)]])
    "Overriding /a" regSt2 (by rfl) (by rfl)

end TrieRouter
